import Mathlib

/-!
Verification of the Starknet chat agent (src/langchain-agent/agent_langchain.ts).

The development is a shallow embedding of the agent source: every definition
below is translated from the TypeScript source file, with external
collaborators (wallet, market, news, storage, language model) passed in as
function parameters, and the JavaScript exception flow made explicit with
the Except monad.  Numeric conversion in the send_eth tool goes through
IEEE-754 binary64 arithmetic, which is modelled exactly over natural-number
fractions (round to nearest, ties to even) for positive values in the
normal range with binary exponent between -80 and 80 — the range covering
every value appearing in these claims.
-/

namespace StarkAgent

/-! ## Exact model of binary64 arithmetic on nonnegative values

The send_eth tool computes the amount of wei with
`BigInt(Math.floor(parseFloat(amountInEth) * 1e18))`.

Per the ECMAScript standard, `parseFloat` of a plain decimal numeral is the
IEEE-754 binary64 value nearest to its exact decimal value (ties to even),
`*` is correctly rounded binary64 multiplication (the literal `1e18` is the
double holding exactly 10^18), `Math.floor` on an integer-valued double is
exact, and `BigInt` of an integer-valued double is exact.  We therefore
model a nonnegative decimal string by its exact value as a fraction of two
natural numbers, and double rounding as an exact operation on such
fractions. -/

/-- A nonnegative rational `num / den` (with `den` positive in all uses),
used to carry the exact value of a decimal amount string and of
intermediate products without any loss. -/
structure Frac where
  num : ℕ
  den : ℕ
deriving DecidableEq, Repr

/-- Decides `2 ^ e ≤ f` by cross-multiplication, for an integer exponent. -/
def Frac.le2pow (e : ℤ) (f : Frac) : Bool :=
  if 0 ≤ e then 2 ^ e.toNat * f.den ≤ f.num else f.den ≤ f.num * 2 ^ (-e).toNat

/-- The binary exponent of `f`: the largest `e` with `2 ^ e ≤ f`, searched
over the range `[-80, 80]`, which contains the exponent of every positive
value arising in the claims below (from 10^-18 up to about 1.2 * 10^18). -/
def floorLog2 (f : Frac) : ℤ :=
  (List.range 161).foldl (fun acc i =>
    let e : ℤ := (i : ℤ) - 80
    if f.le2pow e then e else acc) (-80)

/-- Multiplies the fraction by `2 ^ k` for an integer `k`. -/
def Frac.mul2pow (f : Frac) (k : ℤ) : Frac :=
  if 0 ≤ k then ⟨f.num * 2 ^ k.toNat, f.den⟩ else ⟨f.num, f.den * 2 ^ (-k).toNat⟩

/-- Rounds the nonnegative fraction to the nearest natural number, ties to
even — the IEEE-754 default rounding direction. -/
def roundHalfEvenN (f : Frac) : ℕ :=
  let q := f.num / f.den
  let r := f.num % f.den
  if 2 * r < f.den then q
  else if f.den < 2 * r then q + 1
  else if q % 2 = 0 then q else q + 1

/-- A dyadic rational `m * 2 ^ ex`: the exact value of a binary64 number. -/
structure Dyadic where
  m : ℕ
  ex : ℤ
deriving DecidableEq, Repr

/-- Rounds an exact nonnegative fraction to the nearest binary64 value
(round to nearest, ties to even), for values in the normal range with
binary exponent in `[-80, 80]`: the significand is the half-even rounding
of `f * 2 ^ (52 - e)` where `e` is the binary exponent of `f`. -/
def fl (f : Frac) : Dyadic :=
  if f.num = 0 then ⟨0, 0⟩
  else
    let e := floorLog2 f
    ⟨roundHalfEvenN (f.mul2pow (52 - e)), e - 52⟩

/-- The exact fraction denoted by a dyadic rational. -/
def Dyadic.toFrac (d : Dyadic) : Frac :=
  if 0 ≤ d.ex then ⟨d.m * 2 ^ d.ex.toNat, 1⟩ else ⟨d.m, 2 ^ (-d.ex).toNat⟩

/-- Multiplies the fraction by a natural number. -/
def Frac.mulNat (f : Frac) (k : ℕ) : Frac := ⟨f.num * k, f.den⟩

/-- The floor of a nonnegative fraction. -/
def Frac.floorN (f : Frac) : ℕ := f.num / f.den

/-- Embeds `BigInt(Math.floor(parseFloat(amountInEth) * 1e18))` from the
send_eth tool (agent_langchain.ts lines 84-87): `amount` is the exact value
of the decimal string `amountInEth`; `parseFloat` rounds it to binary64;
the multiplication by the double `1e18` (exactly 10^18) is rounded again;
the floor is then exact. -/
def ethToWeiCode (amount : Frac) : ℕ :=
  ((fl ((fl amount).toFrac.mulNat (10 ^ 18))).toFrac).floorN

/-- The conversion the specification describes: exact fixed-point scaling
by 10^18 with truncation (floor) and no rounding error. -/
def ethToWeiExact (amount : Frac) : ℕ := (amount.mulNat (10 ^ 18)).floorN

/-! ## Process environment and persistent storage -/

/-- The two process-level account overrides read from the environment in
constants.js: `STARKNET_ACCOUNT_ADDRESS` and `STARKNET_PRIVATE_KEY`.
An unset environment variable is `none`. -/
structure Env where
  starknetAccountAddress : Option String
  starknetPrivateKey : Option String

/-- JavaScript truthiness of a possibly-undefined string: `undefined` and
the empty string are falsy, every other string is truthy. -/
def truthy : Option String → Bool
  | none => false
  | some s => !s.isEmpty

/-- The guard `STARKNET_ACCOUNT_ADDRESS && STARKNET_PRIVATE_KEY` used by
the deploy and generate tools (agent_langchain.ts lines 181 and 206). -/
def envFixed (env : Env) : Bool :=
  truthy env.starknetAccountAddress && truthy env.starknetPrivateKey

/-- The persistent key-value store behind readFromStorage/saveToStorage:
a durable mapping from string key to string value, `none` for an absent
key. -/
def Storage : Type := String → Option String

/-- Writes a value (or, for `none`, absence) under a key.  The `none` case
is never exercised by the source on a real run and never by the theorems
below. -/
def setVal (st : Storage) (k : String) (v : Option String) : Storage :=
  fun k2 => if k2 = k then v else st k2

/-- The storage key `chatId:generatedAccountPrivateKey` (line 186, 212). -/
def generatedKey (chatId : String) : String :=
  chatId ++ ":generatedAccountPrivateKey"

/-- The storage key `chatId:privateKey` (line 190). -/
def privateKeyKey (chatId : String) : String := chatId ++ ":privateKey"

/-- The storage key `chatId:accountAddress` (line 191). -/
def accountAddressKey (chatId : String) : String := chatId ++ ":accountAddress"

/-! ## Tools

Each tool's execute handler is translated into a total Lean function.
Calls on external collaborators (getAccount, deployAccount,
generateAccount, getQuote, executeSwap, account.execute, getNews) are
passed in as parameters returning `Except String α`: an `.error e` models
the collaborator call rejecting with a JavaScript Error whose message is
`e`.  A tool body that the source wraps in try/catch is run through
`jsTryCatch`; a body with no try/catch in the source returns
`Except String String`, where `.error` models the failure propagating past
the tool boundary. -/

/-- A JavaScript try/catch around a tool body: a thrown error is caught
and turned into the handler's result, so the tool itself always returns
text. -/
def jsTryCatch (body : Except String String) (handler : String → String) :
    String :=
  match body with
  | .ok s => s
  | .error e => handler e

/-- The refusal text both account tools return when the process-level
override is set (lines 182 and 207). -/
def refusalText : String := "The account is set in the env and cannot be changed."

/-- The account handle resolved by getAccount: the model only needs its
address; its execute method is passed separately. -/
structure Account where
  address : String

/-- An ETH transfer call as built by the send_eth tool. -/
structure TransferCall where
  contractAddress : String
  entrypoint : String
  calldata : List String

/-- The result of account.execute. -/
structure TxResult where
  transaction_hash : String

/-- ETH token address constant on Starknet Sepolia (lines 56-57). -/
def ETH_TOKEN_ADDRESS : String :=
  "0x049d36570d4e46f48e99674bd3fcc84644ddd6b96f7c741b1562b82f9e004dc7"

/-- The send_eth tool (lines 74-113).  `accountResult` is the outcome of
`getAccount(chatId)`, `execute` the outcome of `account.execute` on the
transfer call; `amountInEth` is the exact value of the amount string, whose
conversion to wei is the binary64 computation `ethToWeiCode`.  The whole
body sits inside try/catch, so the tool always returns text. -/
def sendEthRun (accountResult : Except String (Option Account))
    (recipientAddress : String) (amountInEth : Frac)
    (execute : TransferCall → Except String TxResult) : String :=
  jsTryCatch
    (do
      let account? ← accountResult
      match account? with
      | none => pure "Account does not exist, you need to create one first."
      | some _ =>
        let amountInWei := toString (ethToWeiCode amountInEth)
        let result ← execute
          ⟨ETH_TOKEN_ADDRESS, "transfer", [recipientAddress, amountInWei, "0"]⟩
        pure ("Transaction submitted to Sepolia. Hash: "
          ++ result.transaction_hash
          ++ "\n            View on Starkscan: https://sepolia.starkscan.co/tx/"
          ++ result.transaction_hash))
    (fun e => "Error sending ETH: " ++ e)

/-- Modelled from the spec: the canonical ETH token address exported by
swap.js (the file is not under src/); the value matches the ETH token
address constant that is in src/. -/
def ETH_ADDRESS : String :=
  "0x049d36570d4e46f48e99674bd3fcc84644ddd6b96f7c741b1562b82f9e004dc7"

/-- Modelled from the spec: the canonical STRK token address exported by
swap.js (the file is not under src/). -/
def STRK_ADDRESS : String :=
  "0x04718f5a0fc34cc1af16a1cdee98ffb20c31f5cd61d6ab07201858f4287c938d"

/-- String.prototype.toLowerCase, character by character (exact for the
ASCII strings compared here). -/
def jsToLower (s : String) : String := ⟨s.data.map Char.toLower⟩

/-- String.prototype.toUpperCase, character by character (exact for the
ASCII strings compared here). -/
def jsToUpper (s : String) : String := ⟨s.data.map Char.toUpper⟩

/-- The alias normalization in the swap tool (lines 125-135): a token
argument equal to "eth" after lowercasing becomes the canonical ETH
address, "strk" the canonical STRK address, anything else is kept. -/
def normalizeToken (s : String) : String :=
  if jsToLower s = "eth" then ETH_ADDRESS
  else if jsToLower s = "strk" then STRK_ADDRESS
  else s

/-- The triple of arguments the swap tool hands to getQuote (line 137):
both token arguments normalized, the amount as given. -/
def swapQuoteArgs (tokenInAddress tokenOutAddress amountIn : String) :
    String × String × String :=
  (normalizeToken tokenInAddress, normalizeToken tokenOutAddress, amountIn)

/-- The quote returned by getQuote; `buyAmount` is the only field the tool
reads (the source type has further fields, unused here). -/
structure Quote where
  buyAmount : ℕ

/-- The result of executeSwap; `transactionHash` is the only field the
tool reads. -/
structure SwapResult where
  transactionHash : String

/-- The options the swap tool passes to executeSwap (lines 140-143):
`executeApprove: true` and `slippage: 0.01`; the slippage double is
carried as the exact fraction it denotes up to binary64 rounding (no claim
depends on it). -/
structure ExecuteSwapOpts where
  executeApprove : Bool
  slippage : Frac

/-- Strips trailing '0' characters. -/
def stripTrailingZeros (l : List Char) : List Char :=
  (l.reverse.dropWhile (fun c => c = '0')).reverse

/-- Pads a digit string on the left with '0' up to length `n`. -/
def padLeftZeros (l : List Char) (n : ℕ) : List Char :=
  List.replicate (n - l.length) '0' ++ l

/-- The ethers `formatUnits(value, 18)` used on the quote (line 138):
inserts a decimal point 18 places from the right, trimming trailing zeros
of the fraction but keeping at least one fractional digit.  The ethers
library is an external collaborator; this is its documented behaviour on
nonnegative integer inputs. -/
def formatUnits18 (value : ℕ) : String :=
  let whole := Nat.repr (value / 10 ^ 18)
  let fracDigits := stripTrailingZeros (padLeftZeros (Nat.repr (value % 10 ^ 18)).data 18)
  whole ++ "." ++ (if fracDigits.isEmpty then "0" else ⟨fracDigits⟩)

/-- The swap tool (lines 116-161).  `getQuote` and `executeSwap` are the
market collaborator calls; the expected output shown to the user is
computed from the quote before executeSwap runs.  The whole body sits
inside try/catch, so the tool always returns text. -/
def swapRun (accountResult : Except String (Option Account))
    (tokenInAddress tokenOutAddress amountIn : String)
    (getQuote : String → String → String → Except String Quote)
    (executeSwap : Quote → ExecuteSwapOpts → Except String SwapResult) : String :=
  jsTryCatch
    (do
      let account? ← accountResult
      match account? with
      | none => pure "Account does not exist, you need to create one first."
      | some _ =>
        let quote ← getQuote (normalizeToken tokenInAddress)
          (normalizeToken tokenOutAddress) amountIn
        let expectedOutput := formatUnits18 quote.buyAmount
        let result ← executeSwap quote ⟨true, ⟨1, 100⟩⟩
        pure ("✅ Swap executed successfully! You will receive "
          ++ expectedOutput ++ " " ++ jsToUpper tokenOutAddress
          ++ ". Transaction hash: " ++ result.transactionHash))
    (fun e => "Failed to execute swap: " ++ e
      ++ ". Please try again with a different amount or check your balance.")

/-- The get_starknet_account tool (lines 163-173).  No try/catch in the
source: a getAccount failure propagates as `.error`. -/
def getCurrentAccountRun (accountResult : Except String (Option Account)) :
    Except String String := do
  let account? ← accountResult
  match account? with
  | none => pure "Account does not exist, you need to create one first."
  | some account => pure account.address

/-- The outcome of the generateAccount wallet call: a fresh key pair and
the not-yet-deployed contract address. -/
structure GenOutcome where
  privateKey : String
  OZcontractAddress : String

/-- The success text of generate_starknet_account (line 214). -/
def generateSuccessText (address : String) : String :=
  "Here is the new account address: " ++ address
    ++ " . Please send some funds to it using the faucet: https://starknet-faucet.vercel.app . Let me know when you\x27re done and I will deploy the account."

/-- The generate_starknet_account tool (lines 205-221): refuses when the
process-level override is set; otherwise persists the fresh private key
under the session's generated slot, overwriting any previous value.  No
try/catch in the source: a generateAccount failure propagates as
`.error`. -/
def generateRun (env : Env) (chatId : String)
    (generateAccount : Except String GenOutcome) (st : Storage) :
    Except String (Storage × String) :=
  if envFixed env then .ok (st, refusalText)
  else do
    let g ← generateAccount
    pure (setVal st (generatedKey chatId) (some g.privateKey),
      generateSuccessText g.OZcontractAddress)

/-- The deploy_starknet_account tool (lines 180-199): refuses when the
process-level override is set; otherwise reads the session's generated
private key, deploys it (the collaborator receives exactly the value read,
possibly absent) and persists the key and the resulting address under the
session's deployed slot keys.  No try/catch in the source: a deployAccount
failure propagates as `.error`. -/
def deployRun (env : Env) (chatId : String)
    (deployAccount : Option String → Except String String) (st : Storage) :
    Except String (Storage × String) :=
  if envFixed env then .ok (st, refusalText)
  else do
    let privateKey? := st (generatedKey chatId)
    let address ← deployAccount privateKey?
    pure (setVal (setVal st (privateKeyKey chatId) privateKey?)
        (accountAddressKey chatId) (some address),
      "Account deployed. Address: " ++ address)

/-- The items returned by the news collaborator (opaque to the tool). -/
structure News where
  items : List String

/-- The get_news tool (lines 224-232): serializes the collaborator result
with JSON.stringify (passed in as a parameter).  No try/catch in the
source: a getNews failure propagates as `.error`. -/
def getNewsRun (newsResult : Except String News)
    (jsonStringify : News → String) : Except String String := do
  let n ← newsResult
  pure (jsonStringify n)

/-! ## Background Action Scheduler

The source keeps `backgroundActionIntervals`, a record from chat id to the
Node interval handle (line 53).  The model tracks, next to that record, the
set of interval timers the runtime currently has live, each tagged with
the chat id whose start call created it, and a counter supplying fresh
handles: `clearInterval` removes a handle from the live set, `setInterval`
allocates a fresh live handle. -/

/-- The scheduler state: the `backgroundActionIntervals` record (`none`
models both a missing key and an `undefined` entry), the live interval
timers of the runtime as pairs of handle and owning chat id, and the next
fresh handle. -/
structure SchedState where
  intervals : String → Option ℕ
  live : List (ℕ × String)
  nextId : ℕ

/-- Node's clearInterval: the handle stops being live. -/
def clearIntervalRun (st : SchedState) (t : ℕ) : SchedState :=
  { st with live := st.live.filter (fun p => p.1 ≠ t) }

/-- The timers currently live for a given chat id. -/
def activeFor (st : SchedState) (chatId : String) : List (ℕ × String) :=
  st.live.filter (fun p => p.2 = chatId)

/-- The start_background_action tool (lines 238-285): if the record holds
a handle for the chat it is cleared and the entry set to undefined; then a
new interval is created and stored under the chat id.  Returns
"Started.". -/
def startBA (st : SchedState) (chatId : String) : SchedState × String :=
  let st1 : SchedState :=
    match st.intervals chatId with
    | some t =>
      { clearIntervalRun st t with
        intervals := fun c => if c = chatId then none else st.intervals c }
    | none => st
  ({ intervals := fun c => if c = chatId then some st1.nextId else st1.intervals c,
     live := (st1.nextId, chatId) :: st1.live,
     nextId := st1.nextId + 1 }, "Started.")

/-- The stop_background_action tool (lines 288-298): if the record holds a
handle for the chat it is cleared and the entry set to undefined;
otherwise nothing happens.  Returns "Stopped." in both cases. -/
def stopBA (st : SchedState) (chatId : String) : SchedState × String :=
  match st.intervals chatId with
  | some t =>
    ({ clearIntervalRun st t with
       intervals := fun c => if c = chatId then none else st.intervals c }, "Stopped.")
  | none => (st, "Stopped.")

/-- Well-formedness of a scheduler state, true of every state reachable
from the empty record: the record maps each chat to the handle of a live
timer it owns, live handles are below the fresh counter, and no handle is
live twice. -/
structure WFSched (st : SchedState) : Prop where
  owner_map : ∀ p ∈ st.live, st.intervals p.2 = some p.1
  fresh : ∀ p ∈ st.live, p.1 < st.nextId
  nodup : (st.live.map Prod.fst).Nodup

/-! ## Dialogue Engine

The StateGraph built at lines 335-340 has nodes `agent` and `tools`, an
edge from the start marker to `agent`, a conditional edge from `agent`
decided by shouldContinue, and an edge from `tools` back to `agent`. -/

/-- A pending tool invocation carried by an assistant message. -/
structure ToolCall where
  name : String
  args : String
  id : String

/-- A message in the session history; `tool_calls` is `none` when the
field is absent on the message object. -/
structure Msg where
  content : String
  tool_calls : Option (List ToolCall)

/-- The nodes of the dialogue graph: `start` is the `__start__` marker,
`finish` the `__end__` marker. -/
inductive GraphNode
  | start
  | agent
  | tools
  | finish
deriving DecidableEq, Repr

/-- The shouldContinue routing function (lines 319-327): looks at the last
message of the history; if its `tool_calls` is present and nonempty route
to `tools`, otherwise to `__end__`.  The source indexes
`messages[messages.length - 1]`, which faults on an empty history; that
fault is modelled by `none`. -/
def shouldContinue (messages : List Msg) : Option GraphNode :=
  messages.getLast?.map fun lastMessage =>
    match lastMessage.tool_calls with
    | some calls => if 0 < calls.length then .tools else .finish
    | none => .finish

/-- The transition function of the workflow graph (lines 335-340): from
the start marker to `agent`; from `agent` wherever shouldContinue routes;
from `tools` back to `agent`; `finish` is terminal (`none`). -/
def nextNode : GraphNode → List Msg → Option GraphNode
  | .start, _ => some .agent
  | .agent, messages => shouldContinue messages
  | .tools, _ => some .agent
  | .finish, _ => none

/-! ## Helper lemmas -/

/-- Reduction of Except bind on a success. -/
theorem except_bind_ok {α β : Type} (a : α) (f : α → Except String β) :
    (Except.ok a : Except String α) >>= f = f a := rfl

/-- Reduction of Except bind on a failure. -/
theorem except_bind_err {α β : Type} (e : String) (f : α → Except String β) :
    (Except.error e : Except String α) >>= f = Except.error e := rfl

/-- Reduction of Except map on a success. -/
theorem except_map_ok {α β : Type} (a : α) (f : α → β) :
    f <$> (Except.ok a : Except String α) = Except.ok (f a) := rfl

/-- Reduction of Except map on a failure. -/
theorem except_map_err {α β : Type} (e : String) (f : α → β) :
    f <$> (Except.error e : Except String α) = Except.error e := rfl

/-- Reduction of Except pure. -/
theorem except_pure_eq {α : Type} (a : α) :
    (pure a : Except String α) = Except.ok a := rfl

/-- Appending a common front segment preserves distinctness of strings. -/
theorem append_ne_of_data_ne (c a b : String) (h : a.data ≠ b.data) :
    c ++ a ≠ c ++ b := by
  intro he
  apply h
  have h2 := congrArg String.data he
  simp only [String.data_append] at h2
  exact List.append_cancel_left h2

/-- The generated slot key differs from the deployed private-key slot
key. -/
theorem generatedKey_ne_privateKeyKey (c : String) :
    generatedKey c ≠ privateKeyKey c :=
  append_ne_of_data_ne c _ _ (by decide)

/-- The generated slot key differs from the deployed address slot key. -/
theorem generatedKey_ne_accountAddressKey (c : String) :
    generatedKey c ≠ accountAddressKey c :=
  append_ne_of_data_ne c _ _ (by decide)

/-- The deployed private-key slot key differs from the deployed address
slot key. -/
theorem privateKeyKey_ne_accountAddressKey (c : String) :
    privateKeyKey c ≠ accountAddressKey c :=
  append_ne_of_data_ne c _ _ (by decide)

/-- A chat with no interval-record entry owns no live timer, given the
record maps every live timer's owner to its handle. -/
theorem activeFor_eq_nil_of_none (st : SchedState) (c : String)
    (howner : ∀ p ∈ st.live, st.intervals p.2 = some p.1)
    (hm : st.intervals c = none) : activeFor st c = [] := by
  rw [activeFor, List.filter_eq_nil_iff]
  intro p hp
  simp only [decide_eq_true_eq]
  intro hc
  have := howner p hp
  rw [hc, hm] at this
  exact Option.noConfusion this

/-- Clearing the recorded handle of a chat removes every live timer that
chat owns, given the record maps every live timer's owner to its handle. -/
theorem filter_cleared_eq_nil (st : SchedState) (c : String) (t : ℕ)
    (howner : ∀ p ∈ st.live, st.intervals p.2 = some p.1)
    (hm : st.intervals c = some t) :
    (st.live.filter (fun p => p.1 ≠ t)).filter (fun p => p.2 = c) = [] := by
  rw [List.filter_eq_nil_iff]
  intro p hp
  rw [List.mem_filter] at hp
  simp only [decide_eq_true_eq] at hp ⊢
  intro hc
  have := howner p hp.1
  rw [hc, hm] at this
  injection this with h2
  exact hp.2 h2.symm

/-- A state whose live list is a fresh timer for `c` on top of a base with
no timer of `c`, with a record consistent with it, has exactly one live
timer for `c` and is well-formed. -/
theorem startBA_core (st2 : SchedState) (c : String) (n : ℕ)
    (base : List (ℕ × String))
    (hlive : st2.live = (n, c) :: base)
    (hnext : st2.nextId = n + 1)
    (hintc : st2.intervals c = some n)
    (hbase_noc : ∀ p ∈ base, p.2 ≠ c)
    (hbase_owner : ∀ p ∈ base, st2.intervals p.2 = some p.1)
    (hbase_fresh : ∀ p ∈ base, p.1 < n)
    (hbase_nodup : (base.map Prod.fst).Nodup) :
    (activeFor st2 c).length = 1 ∧ WFSched st2 := by
  constructor
  · rw [activeFor, hlive, List.filter_cons]
    have hbnil : base.filter (fun p => p.2 = c) = [] := by
      rw [List.filter_eq_nil_iff]
      intro p hp
      simpa using hbase_noc p hp
    simp [hbnil]
  · refine ⟨?_, ?_, ?_⟩
    · intro p hp
      rw [hlive] at hp
      rcases List.mem_cons.mp hp with hpc | hpl
      · subst hpc; exact hintc
      · exact hbase_owner p hpl
    · intro p hp
      rw [hlive] at hp
      rw [hnext]
      rcases List.mem_cons.mp hp with hpc | hpl
      · subst hpc; exact Nat.lt_succ_self n
      · exact Nat.lt_succ_of_lt (hbase_fresh p hpl)
    · rw [hlive, List.map_cons]
      refine List.nodup_cons.mpr ⟨?_, hbase_nodup⟩
      intro hmem
      rw [List.mem_map] at hmem
      obtain ⟨p, hpl, hpe⟩ := hmem
      exact Nat.lt_irrefl _ (hpe ▸ hbase_fresh p hpl)

/-- startBA leaves the chat with exactly one live timer and preserves
well-formedness. -/
theorem startBA_step (st : SchedState) (c : String) (h : WFSched st) :
    (activeFor (startBA st c).1 c).length = 1 ∧ WFSched (startBA st c).1 := by
  cases hm : st.intervals c with
  | none =>
    have hnoc : ∀ p ∈ st.live, p.2 ≠ c := by
      intro p hp hc
      have := h.owner_map p hp
      rw [hc, hm] at this
      exact Option.noConfusion this
    refine startBA_core (startBA st c).1 c st.nextId st.live ?_ ?_ ?_ hnoc ?_
      h.fresh h.nodup
    · simp [startBA, hm]
    · simp [startBA, hm]
    · simp [startBA, hm]
    · intro p hp
      have hpne := hnoc p hp
      simp only [startBA, hm]
      simp [hpne]
      exact h.owner_map p hp
  | some t =>
    have hnoc : ∀ p ∈ st.live.filter (fun p => p.1 ≠ t), p.2 ≠ c := by
      intro p hp hc
      have hmem := List.mem_filter.mp hp
      have hown := h.owner_map p hmem.1
      rw [hc, hm] at hown
      injection hown with h2
      have hne : p.1 ≠ t := by simpa using hmem.2
      exact hne h2.symm
    refine startBA_core (startBA st c).1 c st.nextId
      (st.live.filter (fun p => p.1 ≠ t)) ?_ ?_ ?_ hnoc ?_ ?_ ?_
    · simp [startBA, hm, clearIntervalRun]
    · simp [startBA, hm, clearIntervalRun]
    · simp [startBA, hm, clearIntervalRun]
    · intro p hp
      have hpne := hnoc p hp
      simp only [startBA, hm, clearIntervalRun]
      simp [hpne]
      exact h.owner_map p (List.mem_filter.mp hp).1
    · intro p hp
      exact h.fresh p (List.mem_filter.mp hp).1
    · exact h.nodup.sublist (List.Sublist.map Prod.fst (List.filter_sublist _))

/-! ## The claims -/

/-- C1: the send_eth amount conversion is claimed to be exact fixed-point
scaling at 18 decimal places with truncation.  On the amount string
"0.000000000000000001" (exact value 1 / 10^18) the code indeed yields 1
wei; but on "1.1234567891234567891" (exact value
11234567891234567891 / 10^19) the code's binary64 computation yields
1123456789123456768 wei, while exact truncation at 18 decimal places
yields 1123456789123456789 wei — the claim fails on the code.  The last
conjunct runs the full send_eth tool at that amount against an
instrumented account.execute and shows the diverged figure inside the
submitted transfer calldata. -/
theorem sendEth_conversion_binary64_divergence :
    ethToWeiCode ⟨1, 10 ^ 18⟩ = 1 ∧
    ethToWeiCode ⟨11234567891234567891, 10 ^ 19⟩ = 1123456789123456768 ∧
    ethToWeiExact ⟨11234567891234567891, 10 ^ 19⟩ = 1123456789123456789 ∧
    ethToWeiCode ⟨11234567891234567891, 10 ^ 19⟩ ≠
      ethToWeiExact ⟨11234567891234567891, 10 ^ 19⟩ ∧
    sendEthRun (.ok (some ⟨"0xme"⟩)) "0xrecipient" ⟨11234567891234567891, 10 ^ 19⟩
        (fun call => .error (String.intercalate "," call.calldata))
      = "Error sending ETH: 0xrecipient,1123456789123456768,0" := by
  refine ⟨by decide, by decide, by decide, by decide, ?_⟩
  decide

/-- C2 counterexample: the deploy_starknet_account tool has no try/catch,
so a failing deployAccount collaborator call propagates out of the tool as
a fault, contradicting the claim that no tool ever lets such a failure
propagate past the tool boundary. -/
theorem tool_failure_propagation_counterexample :
    deployRun ⟨none, none⟩ "42" (fun _ => .error "RPC failure") (fun _ => none)
      = .error "RPC failure" := rfl

/-- C2 amended: only send_eth and swap catch failures from their
collaborator calls and convert them to descriptive text; the
deploy_starknet_account, generate_starknet_account, get_starknet_account
and get_news tools have no catch, so their collaborator failures propagate
past the tool boundary. -/
theorem tool_failure_handling_amended :
    (∀ (e recipient : String) (amount : Frac)
      (execute : TransferCall → Except String TxResult),
      sendEthRun (.error e) recipient amount execute
        = "Error sending ETH: " ++ e) ∧
    (∀ (e recipient : String) (amount : Frac) (acct : Account),
      sendEthRun (.ok (some acct)) recipient amount (fun _ => .error e)
        = "Error sending ETH: " ++ e) ∧
    (∀ (e tIn tOut amt : String)
      (exec : Quote → ExecuteSwapOpts → Except String SwapResult) (acct : Account),
      swapRun (.ok (some acct)) tIn tOut amt (fun _ _ _ => .error e) exec
        = "Failed to execute swap: " ++ e
          ++ ". Please try again with a different amount or check your balance.") ∧
    (∀ (e tIn tOut amt : String) (q : Quote) (acct : Account),
      swapRun (.ok (some acct)) tIn tOut amt (fun _ _ _ => .ok q) (fun _ _ => .error e)
        = "Failed to execute swap: " ++ e
          ++ ". Please try again with a different amount or check your balance.") ∧
    (∀ (e chatId : String) (st : Storage),
      deployRun ⟨none, none⟩ chatId (fun _ => .error e) st = .error e) ∧
    (∀ (e chatId : String) (st : Storage),
      generateRun ⟨none, none⟩ chatId (.error e) st = .error e) ∧
    (∀ e : String, getCurrentAccountRun (.error e) = .error e) ∧
    (∀ (e : String) (f : News → String), getNewsRun (.error e) f = .error e) := by
  refine ⟨?_, ?_, ?_, ?_, ?_, ?_, ?_, ?_⟩ <;> intros <;> rfl

/-- C3: with no fixed-account override, deploying reads the session's
generated private key, deploys it and persists the key and the resulting
address under the deployed slot keys; every other key — the generated slot
included — is untouched, so after a successful deploy the generated slot
holds exactly the now-deployed credential (the same string as the deployed
private-key slot), no longer an undeployed one.  The slot is not cleared,
but its content is consumed in the sense that it coincides with the
deployed key. -/
theorem deployAccount_consumes_generated_slot
    (env : Env) (chatId pk addr : String) (st : Storage)
    (deployAccount : Option String → Except String String)
    (hEnv : envFixed env = false)
    (hSlot : st (generatedKey chatId) = some pk)
    (hDeploy : deployAccount (some pk) = .ok addr) :
    ∃ st2, deployRun env chatId deployAccount st
        = .ok (st2, "Account deployed. Address: " ++ addr) ∧
      st2 (privateKeyKey chatId) = some pk ∧
      st2 (accountAddressKey chatId) = some addr ∧
      st2 (generatedKey chatId) = some pk ∧
      st2 (generatedKey chatId) = st2 (privateKeyKey chatId) ∧
      ∀ k, k ≠ privateKeyKey chatId → k ≠ accountAddressKey chatId →
        st2 k = st k := by
  refine ⟨setVal (setVal st (privateKeyKey chatId) (some pk))
    (accountAddressKey chatId) (some addr), ?_, ?_, ?_, ?_, ?_, ?_⟩
  · simp [deployRun, hEnv, hSlot, hDeploy]
  · simp [setVal, privateKeyKey_ne_accountAddressKey chatId]
  · simp [setVal]
  · simp [setVal, generatedKey_ne_privateKeyKey chatId,
      generatedKey_ne_accountAddressKey chatId, hSlot]
  · simp [setVal, generatedKey_ne_privateKeyKey chatId,
      generatedKey_ne_accountAddressKey chatId,
      privateKeyKey_ne_accountAddressKey chatId, hSlot]
  · intro k h1 h2
    simp [setVal, h1, h2]

/-- C3 witness at a concrete session. -/
theorem deployAccount_consumes_generated_slot_witness :
    ∃ st2, deployRun ⟨none, none⟩ "42" (fun _ => .ok "0xaddr")
        (fun k => if k = generatedKey "42" then some "0xkey" else none)
        = .ok (st2, "Account deployed. Address: " ++ "0xaddr") ∧
      st2 (privateKeyKey "42") = some "0xkey" ∧
      st2 (accountAddressKey "42") = some "0xaddr" ∧
      st2 (generatedKey "42") = some "0xkey" ∧
      st2 (generatedKey "42") = st2 (privateKeyKey "42") ∧
      ∀ k, k ≠ privateKeyKey "42" → k ≠ accountAddressKey "42" →
        st2 k = (fun k => if k = generatedKey "42" then some "0xkey" else none) k :=
  deployAccount_consumes_generated_slot ⟨none, none⟩ "42" "0xkey" "0xaddr" _ _
    rfl (by simp) rfl

/-- C4: start_background_action cancels any recorded timer for the session
before storing a fresh one and returns "Started." with no error in either
case; from any well-formed scheduler state one start leaves the session
with exactly one live timer, and a second start in succession still leaves
exactly one. -/
theorem startBA_single_active (st : SchedState) (c : String) (h : WFSched st) :
    (activeFor (startBA st c).1 c).length = 1 ∧
    (activeFor (startBA (startBA st c).1 c).1 c).length = 1 ∧
    (startBA st c).2 = "Started." ∧
    (startBA (startBA st c).1 c).2 = "Started." := by
  obtain ⟨h1, hwf1⟩ := startBA_step st c h
  obtain ⟨h2, _⟩ := startBA_step (startBA st c).1 c hwf1
  exact ⟨h1, h2, rfl, rfl⟩

/-- C4 witness from the empty scheduler state. -/
theorem startBA_single_active_witness :
    (activeFor (startBA ⟨fun _ => none, [], 0⟩ "42").1 "42").length = 1 ∧
    (activeFor (startBA (startBA ⟨fun _ => none, [], 0⟩ "42").1 "42").1 "42").length = 1 ∧
    (startBA ⟨fun _ => none, [], 0⟩ "42").2 = "Started." ∧
    (startBA (startBA ⟨fun _ => none, [], 0⟩ "42").1 "42").2 = "Started." :=
  startBA_single_active ⟨fun _ => none, [], 0⟩ "42"
    ⟨by intro p hp; exact absurd hp (List.not_mem_nil p),
     by intro p hp; exact absurd hp (List.not_mem_nil p),
     List.nodup_nil⟩

/-- C5: the dialogue graph starts at agent; after agent it moves to tools
exactly when the latest message carries at least one pending tool call
(absent or empty tool_calls halt the turn); after tools it always returns
to agent. -/
theorem dialogue_transitions (messages : List Msg) :
    nextNode .start messages = some .agent ∧
    nextNode .tools messages = some .agent ∧
    (∀ m calls, messages.getLast? = some m → m.tool_calls = some calls →
      0 < calls.length → nextNode .agent messages = some .tools) ∧
    (∀ m, messages.getLast? = some m → m.tool_calls = none →
      nextNode .agent messages = some .finish) ∧
    (∀ m, messages.getLast? = some m → m.tool_calls = some [] →
      nextNode .agent messages = some .finish) := by
  refine ⟨rfl, rfl, ?_, ?_, ?_⟩
  · intro m calls hlast hcalls hlen
    simp [nextNode, shouldContinue, hlast, hcalls, hlen]
  · intro m hlast hcalls
    simp [nextNode, shouldContinue, hlast, hcalls]
  · intro m hlast hcalls
    simp [nextNode, shouldContinue, hlast, hcalls]

/-- C5 witness on concrete one-message histories. -/
theorem dialogue_transitions_witness :
    nextNode .start [] = some .agent ∧
    nextNode .agent [⟨"hi", some [⟨"swap", "a", "1"⟩]⟩] = some .tools ∧
    nextNode .agent [⟨"done", none⟩] = some .finish ∧
    nextNode .tools [⟨"done", none⟩] = some .agent :=
  ⟨(dialogue_transitions []).1,
   (dialogue_transitions _).2.2.1 _ _ rfl rfl (by decide),
   (dialogue_transitions _).2.2.2.1 _ rfl rfl,
   (dialogue_transitions _).2.1⟩

/-- C6: whenever both process-level overrides are truthy strings, both
account tools return the fixed refusal text unmodified and leave storage
exactly as it was, whatever the session's stored credentials are and
whatever the wallet collaborator would have answered. -/
theorem env_override_refuses
    (env : Env) (chatId : String) (st : Storage)
    (generateAccount : Except String GenOutcome)
    (deployAccount : Option String → Except String String)
    (hA : truthy env.starknetAccountAddress = true)
    (hK : truthy env.starknetPrivateKey = true) :
    generateRun env chatId generateAccount st = .ok (st, refusalText) ∧
    deployRun env chatId deployAccount st = .ok (st, refusalText) := by
  have hfix : envFixed env = true := by simp [envFixed, hA, hK]
  exact ⟨by simp [generateRun, hfix], by simp [deployRun, hfix]⟩

/-- C6 witness with both overrides set and a nonempty session store. -/
theorem env_override_refuses_witness :
    generateRun ⟨some "0xfixed", some "0xsecret"⟩ "42" (.ok ⟨"0xk", "0xa"⟩)
        (fun _ => some "anything")
      = .ok ((fun _ => some "anything"), refusalText) ∧
    deployRun ⟨some "0xfixed", some "0xsecret"⟩ "42" (fun _ => .ok "0xaddr")
        (fun _ => some "anything")
      = .ok ((fun _ => some "anything"), refusalText) :=
  env_override_refuses ⟨some "0xfixed", some "0xsecret"⟩ "42"
    (fun _ => some "anything") (.ok ⟨"0xk", "0xa"⟩) (fun _ => .ok "0xaddr")
    rfl rfl

/-- C7: the swap tool lowercases each token argument and resolves the
aliases "eth" and "strk" to the canonical addresses, case-insensitively,
leaving anything else unchanged; the final conjunct runs the full swap
tool against an instrumented getQuote and shows the quote request receives
exactly the normalized pair. -/
theorem swap_token_alias_normalization (tIn tOut amt : String) :
    (jsToLower tIn = "eth" → normalizeToken tIn = ETH_ADDRESS) ∧
    (jsToLower tIn = "strk" → normalizeToken tIn = STRK_ADDRESS) ∧
    normalizeToken "ETH" = ETH_ADDRESS ∧
    normalizeToken "eth" = ETH_ADDRESS ∧
    normalizeToken "STRK" = STRK_ADDRESS ∧
    normalizeToken "strk" = STRK_ADDRESS ∧
    swapQuoteArgs tIn tOut amt = (normalizeToken tIn, normalizeToken tOut, amt) ∧
    (∀ (acct : Account) (exec : Quote → ExecuteSwapOpts → Except String SwapResult),
      swapRun (.ok (some acct)) tIn tOut amt
        (fun a b c2 => .error (a ++ "|" ++ b ++ "|" ++ c2)) exec
      = "Failed to execute swap: "
        ++ (normalizeToken tIn ++ "|" ++ normalizeToken tOut ++ "|" ++ amt)
        ++ ". Please try again with a different amount or check your balance.") := by
  refine ⟨?_, ?_, by decide, by decide, by decide, by decide, rfl, ?_⟩
  · intro h; simp [normalizeToken, h]
  · intro h; simp [normalizeToken, h]
  · intro acct exec; rfl

/-- C7 witness: uppercase aliases behave like the lowercase ones. -/
theorem swap_token_alias_normalization_witness :
    jsToLower "ETH" = "eth" ∧ normalizeToken "ETH" = ETH_ADDRESS ∧
    jsToLower "STRK" = "strk" ∧ normalizeToken "STRK" = STRK_ADDRESS :=
  ⟨by decide,
   (swap_token_alias_normalization "ETH" "STRK" "1").1 (by decide),
   by decide,
   (swap_token_alias_normalization "STRK" "ETH" "1").2.1 (by decide)⟩

/-- C8: generating twice for the same session without an intervening
deploy overwrites the generated slot with the second key, and a subsequent
deploy deploys the second key and persists the second deploy address. -/
theorem generate_twice_deploys_second
    (env : Env) (chatId k1 a1 k2 a2 addr : String) (st : Storage)
    (deployAccount : Option String → Except String String)
    (hEnv : envFixed env = false)
    (hDeploy : deployAccount (some k2) = .ok addr) :
    ∃ st1 st2,
      generateRun env chatId (.ok ⟨k1, a1⟩) st
        = .ok (st1, generateSuccessText a1) ∧
      generateRun env chatId (.ok ⟨k2, a2⟩) st1
        = .ok (st2, generateSuccessText a2) ∧
      st2 (generatedKey chatId) = some k2 ∧
      ∃ st3, deployRun env chatId deployAccount st2
          = .ok (st3, "Account deployed. Address: " ++ addr) ∧
        st3 (privateKeyKey chatId) = some k2 ∧
        st3 (accountAddressKey chatId) = some addr := by
  refine ⟨setVal st (generatedKey chatId) (some k1),
    setVal (setVal st (generatedKey chatId) (some k1)) (generatedKey chatId) (some k2),
    ?_, ?_, ?_, ?_⟩
  · simp [generateRun, hEnv]
  · simp [generateRun, hEnv]
  · simp [setVal]
  · refine ⟨setVal (setVal
      (setVal (setVal st (generatedKey chatId) (some k1)) (generatedKey chatId) (some k2))
      (privateKeyKey chatId) (some k2))
      (accountAddressKey chatId) (some addr), ?_, ?_, ?_⟩
    · simp [deployRun, hEnv, setVal, hDeploy]
    · simp [setVal, privateKeyKey_ne_accountAddressKey chatId]
    · simp [setVal]

/-- C8 witness at a concrete session and keys. -/
theorem generate_twice_deploys_second_witness :
    ∃ st1 st2,
      generateRun ⟨none, none⟩ "42" (.ok ⟨"0xk1", "0xa1"⟩) (fun _ => none)
        = .ok (st1, generateSuccessText "0xa1") ∧
      generateRun ⟨none, none⟩ "42" (.ok ⟨"0xk2", "0xa2"⟩) st1
        = .ok (st2, generateSuccessText "0xa2") ∧
      st2 (generatedKey "42") = some "0xk2" ∧
      ∃ st3, deployRun ⟨none, none⟩ "42"
            (fun k => if k = some "0xk2" then .ok "0xaddr2" else .error "wrong key")
            st2
          = .ok (st3, "Account deployed. Address: " ++ "0xaddr2") ∧
        st3 (privateKeyKey "42") = some "0xk2" ∧
        st3 (accountAddressKey "42") = some "0xaddr2" :=
  generate_twice_deploys_second ⟨none, none⟩ "42" "0xk1" "0xa1" "0xk2" "0xa2"
    "0xaddr2" (fun _ => none) _ rfl (by simp)

/-- C9: stop_background_action always returns "Stopped." and never an
error; on a session with no recorded timer it is a no-op leaving the state
untouched, and otherwise it clears the record entry and leaves the session
with no live timer. -/
theorem stopBA_idempotent_noop (st : SchedState) (c : String) (h : WFSched st) :
    (stopBA st c).2 = "Stopped." ∧
    (st.intervals c = none → (stopBA st c).1 = st) ∧
    (stopBA st c).1.intervals c = none ∧
    activeFor (stopBA st c).1 c = [] := by
  cases hm : st.intervals c with
  | none =>
    refine ⟨by simp [stopBA, hm], fun _ => by simp [stopBA, hm], ?_, ?_⟩
    · simp [stopBA, hm]
    · simp only [stopBA, hm]
      exact activeFor_eq_nil_of_none st c h.owner_map hm
  | some t =>
    refine ⟨by simp [stopBA, hm], fun hc => Option.noConfusion hc, ?_, ?_⟩
    · simp [stopBA, hm]
    · simp only [stopBA, hm, activeFor, clearIntervalRun]
      exact filter_cleared_eq_nil st c t h.owner_map hm

/-- C9 witness on the empty scheduler state. -/
theorem stopBA_idempotent_noop_witness :
    (stopBA ⟨fun _ => none, [], 0⟩ "42").2 = "Stopped." ∧
    ((⟨fun _ => none, [], 0⟩ : SchedState).intervals "42" = none →
      (stopBA ⟨fun _ => none, [], 0⟩ "42").1 = ⟨fun _ => none, [], 0⟩) ∧
    (stopBA ⟨fun _ => none, [], 0⟩ "42").1.intervals "42" = none ∧
    activeFor (stopBA ⟨fun _ => none, [], 0⟩ "42").1 "42" = [] :=
  stopBA_idempotent_noop ⟨fun _ => none, [], 0⟩ "42"
    ⟨by intro p hp; exact absurd hp (List.not_mem_nil p),
     by intro p hp; exact absurd hp (List.not_mem_nil p),
     List.nodup_nil⟩

/-- C10: the received amount in the swap success message is the quote's
buyAmount formatted at 18 decimal places — the quote fetched before
executeSwap runs — and the execution result contributes only its
transaction hash to the message. -/
theorem swap_message_amount_from_quote
    (tIn tOut amt : String) (acct : Account) (q : Quote) (r : SwapResult)
    (getQuote : String → String → String → Except String Quote)
    (executeSwap : Quote → ExecuteSwapOpts → Except String SwapResult)
    (hq : getQuote (normalizeToken tIn) (normalizeToken tOut) amt = .ok q)
    (he : executeSwap q ⟨true, ⟨1, 100⟩⟩ = .ok r) :
    swapRun (.ok (some acct)) tIn tOut amt getQuote executeSwap =
      "✅ Swap executed successfully! You will receive "
        ++ formatUnits18 q.buyAmount ++ " " ++ jsToUpper tOut
        ++ ". Transaction hash: " ++ r.transactionHash := by
  simp [swapRun, jsTryCatch, hq, he, except_bind_ok, except_map_ok, except_pure_eq]

/-- C10 witness: a quote of 1.5 * 10^18 smallest units is reported as
"1.5" regardless of the execution result, which contributes only the
hash. -/
theorem swap_message_amount_from_quote_witness :
    swapRun (.ok (some ⟨"0xa"⟩)) "eth" "strk" "2000000000000000000"
        (fun _ _ _ => .ok ⟨1500000000000000000⟩) (fun _ _ => .ok ⟨"0xhash"⟩)
      = "✅ Swap executed successfully! You will receive 1.5 STRK. Transaction hash: 0xhash" := by
  have h := swap_message_amount_from_quote "eth" "strk" "2000000000000000000"
    ⟨"0xa"⟩ ⟨1500000000000000000⟩ ⟨"0xhash"⟩
    (fun _ _ _ => .ok ⟨1500000000000000000⟩) (fun _ _ => .ok ⟨"0xhash"⟩) rfl rfl
  rw [h]
  decide

end StarkAgent
